import Mathlib

/-!
Verification of the order/payment lifecycle of the senan-ecommerce-backend
repository: a shallow embedding of `src/utils/orderStateMachine.ts`,
`src/controllers/order.controller.ts` (the state-machine-aware version with
the `$transaction` block) and `src/controllers/inventory.controller.ts`,
together with theorems settling the specification's claims about them.

Modelling conventions:
* database tables (`User`, `Product`, `Order`, `InventoryMovement`, `Setting`)
  are Lean lists of structures; primary keys are `Nat`;
* JavaScript numbers holding money are embedded as `ℚ`; integer counters
  (stock, sales) as `ℤ` since the interesting questions are about signs;
* `Date` values are abstract instants `Nat` passed in as a `now` parameter;
* each controller returns the new database state together with
  `Except ApiError α`; a thrown `ApiError` leaves the state unchanged,
  mirroring that the handlers either fail before any write or fail inside a
  `prisma.$transaction` that rolls back.
-/

/-- Order status enum from `src/constants/roles.ts`. -/
inductive OrderStatus
  | PENDING | CONFIRMED | PROCESSING | SHIPPED | DELIVERED | CANCELLED | REFUNDED
deriving DecidableEq, Repr, Fintype

/-- Payment status enum from `src/constants/roles.ts`. -/
inductive PaymentStatus
  | PENDING | PAID | FAILED | REFUNDED | PARTIALLY_REFUNDED
deriving DecidableEq, Repr, Fintype

/-- Fulfillment status enum from `src/constants/roles.ts`. -/
inductive FulfillmentStatus
  | UNFULFILLED | PARTIALLY_FULFILLED | FULFILLED
deriving DecidableEq, Repr, Fintype

/-- Product status enum from `src/constants/roles.ts`. -/
inductive ProductStatus
  | DRAFT | ACTIVE | OUT_OF_STOCK | DISCONTINUED
deriving DecidableEq, Repr, Fintype

/-- User role enum from `src/constants/roles.ts`. -/
inductive Role
  | ADMIN | MANAGER | SELLER | CUSTOMER
deriving DecidableEq, Repr, Fintype

/-- Payment method enum from `src/constants/roles.ts`. -/
inductive PaymentMethod
  | CHAPA | TELEBIRR | SANTIM_PAY | CASH_ON_DELIVERY | BANK_TRANSFER
deriving DecidableEq, Repr, Fintype

/-- Inventory movement type (string literals `"SALE"`, `"RETURN"`,
`"RESTOCK"`, `"ADJUSTMENT"` in the source). -/
inductive MovementType
  | SALE | RETURN | RESTOCK | ADJUSTMENT
deriving DecidableEq, Repr, Fintype

/-- `ApiError` from `src/middleware/error.middleware.ts`: a message plus an
HTTP status code. -/
structure ApiError where
  message : String
  statusCode : Nat
deriving DecidableEq, Repr

deriving instance DecidableEq for Except

/-- Render an order status the way the template literal in
`orderStateMachine.ts` would. -/
def OrderStatus.str : OrderStatus → String
  | .PENDING => "PENDING"
  | .CONFIRMED => "CONFIRMED"
  | .PROCESSING => "PROCESSING"
  | .SHIPPED => "SHIPPED"
  | .DELIVERED => "DELIVERED"
  | .CANCELLED => "CANCELLED"
  | .REFUNDED => "REFUNDED"

/-- Render a payment status the way the template literal in
`orderStateMachine.ts` would. -/
def PaymentStatus.str : PaymentStatus → String
  | .PENDING => "PENDING"
  | .PAID => "PAID"
  | .FAILED => "FAILED"
  | .REFUNDED => "REFUNDED"
  | .PARTIALLY_REFUNDED => "PARTIALLY_REFUNDED"

/-- The `VALID_TRANSITIONS` table of `src/utils/orderStateMachine.ts`
(from-status to list of allowed to-statuses). -/
def VALID_TRANSITIONS : OrderStatus → List OrderStatus
  | .PENDING => [.CONFIRMED, .CANCELLED]
  | .CONFIRMED => [.PROCESSING, .CANCELLED]
  | .PROCESSING => [.SHIPPED, .CANCELLED]
  | .SHIPPED => [.DELIVERED, .CANCELLED]
  | .DELIVERED => [.REFUNDED]
  | .CANCELLED => []
  | .REFUNDED => []

/-- `validateOrderStatusTransition` from `src/utils/orderStateMachine.ts`:
throws a 400 `ApiError` when the requested transition is not in the table. -/
def validateOrderStatusTransition (currentStatus newStatus : OrderStatus) :
    Except ApiError Unit :=
  let allowed := VALID_TRANSITIONS currentStatus
  if newStatus ∈ allowed then Except.ok ()
  else Except.error
    ⟨"Invalid transition from " ++ currentStatus.str ++ " to " ++ newStatus.str, 400⟩

/-- The inline `valid` table of `validatePaymentStatusTransition` in
`src/utils/orderStateMachine.ts`. -/
def validPaymentTransitions : PaymentStatus → List PaymentStatus
  | .PENDING => [.PAID, .FAILED]
  | .PAID => [.REFUNDED, .PARTIALLY_REFUNDED]
  | .FAILED => [.PENDING]
  | .REFUNDED => []
  | .PARTIALLY_REFUNDED => [.REFUNDED]

/-- `validatePaymentStatusTransition` from `src/utils/orderStateMachine.ts`. -/
def validatePaymentStatusTransition (currentStatus newStatus : PaymentStatus) :
    Except ApiError Unit :=
  let allowed := validPaymentTransitions currentStatus
  if newStatus ∈ allowed then Except.ok ()
  else Except.error
    ⟨"Invalid payment transition from " ++ currentStatus.str ++ " to " ++ newStatus.str, 400⟩

/-- `getOrderStatusFromPayment` from `src/utils/orderStateMachine.ts`. -/
def getOrderStatusFromPayment (paymentStatus : PaymentStatus) : OrderStatus :=
  match paymentStatus with
  | .PAID => OrderStatus.CONFIRMED
  | .FAILED => OrderStatus.PENDING
  | .REFUNDED => OrderStatus.REFUNDED
  | _ => OrderStatus.PENDING

/-- Allowed order-status edge table exactly as the specification words it
(section 4.1), for comparison with `validateOrderStatusTransition`. -/
def specAllowedOrderTransition (c n : OrderStatus) : Bool :=
  decide ((c, n) ∈ [
    (OrderStatus.PENDING, OrderStatus.CONFIRMED),
    (OrderStatus.PENDING, OrderStatus.CANCELLED),
    (OrderStatus.CONFIRMED, OrderStatus.PROCESSING),
    (OrderStatus.CONFIRMED, OrderStatus.CANCELLED),
    (OrderStatus.PROCESSING, OrderStatus.SHIPPED),
    (OrderStatus.PROCESSING, OrderStatus.CANCELLED),
    (OrderStatus.SHIPPED, OrderStatus.DELIVERED),
    (OrderStatus.SHIPPED, OrderStatus.CANCELLED),
    (OrderStatus.DELIVERED, OrderStatus.REFUNDED)])

/-- Allowed payment-status edge table exactly as the specification words it
(section 4.1), for comparison with `validatePaymentStatusTransition`. -/
def specAllowedPaymentTransition (c n : PaymentStatus) : Bool :=
  decide ((c, n) ∈ [
    (PaymentStatus.PENDING, PaymentStatus.PAID),
    (PaymentStatus.PENDING, PaymentStatus.FAILED),
    (PaymentStatus.PAID, PaymentStatus.REFUNDED),
    (PaymentStatus.PAID, PaymentStatus.PARTIALLY_REFUNDED),
    (PaymentStatus.FAILED, PaymentStatus.PENDING),
    (PaymentStatus.PARTIALLY_REFUNDED, PaymentStatus.REFUNDED)])

/-- `true` exactly when the validation call fails with HTTP status 400. -/
def isErr400 : Except ApiError Unit → Bool
  | .error e => e.statusCode == 400
  | .ok _ => false

/-- A row of the `Product` table (the fields the order/inventory
controllers read or write). -/
structure Product where
  id : Nat
  name : String
  sku : String
  thumbnail : Option String
  price : ℚ
  stock : ℤ
  salesCount : ℤ
  trackInventory : Bool
  status : ProductStatus
deriving DecidableEq, Repr

/-- A row of the `User` table (the fields the order controller reads or
writes). -/
structure User where
  id : Nat
  name : String
  email : String
  phone : Option String
  role : Role
  totalOrders : Nat
  totalSpent : ℚ
deriving DecidableEq, Repr

/-- A row of the `OrderItem` table: the snapshot of a product taken by
`createOrder`. -/
structure OrderItem where
  productId : Nat
  productName : String
  productSku : String
  productImage : Option String
  price : ℚ
  quantity : Nat
  subtotal : ℚ
deriving DecidableEq, Repr

/-- A row of the `Order` table, with its exclusively-owned items inlined. -/
structure Order where
  id : Nat
  orderNumber : String
  userId : Nat
  customerName : String
  customerEmail : String
  customerPhone : String
  shippingAddress : String
  shippingCity : String
  shippingCountry : String
  shippingPostal : Option String
  billingAddress : String
  billingCity : String
  billingCountry : String
  billingPostal : Option String
  subtotal : ℚ
  tax : ℚ
  shippingCost : ℚ
  discount : ℚ
  total : ℚ
  orderStatus : OrderStatus
  paymentStatus : PaymentStatus
  fulfillmentStatus : FulfillmentStatus
  paymentMethod : PaymentMethod
  customerNotes : Option String
  internalNotes : Option String
  trackingNumber : Option String
  shippingCarrier : Option String
  items : List OrderItem
  shippedAt : Option Nat
  deliveredAt : Option Nat
  cancelledAt : Option Nat
  paidAt : Option Nat
deriving DecidableEq, Repr

/-- A row of the append-only `InventoryMovement` table. -/
structure InventoryMovement where
  productId : Nat
  quantityDelta : ℤ
  type : MovementType
  reason : Option String
  referenceId : Option Nat
  userId : Nat
deriving DecidableEq, Repr

/-- A row of the `Setting` table (see the seed data: keys such as
`tax_rate`, `free_shipping_threshold`, `default_shipping_cost`, stored as
strings with a type tag). -/
structure Setting where
  key : String
  value : String
  type : String
  category : String
deriving DecidableEq, Repr

/-- The database state visible to the controllers under verification. -/
structure DB where
  users : List User
  products : List Product
  orders : List Order
  movements : List InventoryMovement
  settings : List Setting
deriving DecidableEq, Repr

/-- `prisma.product.findUnique({ where: { id } })` over the list model. -/
def findProduct (ps : List Product) (pid : Nat) : Option Product :=
  ps.find? (fun p => p.id == pid)

/-- `prisma.product.update({ where: { id: pid }, data: ... })`: rewrite the
row whose id matches. -/
def updateById (pid : Nat) (f : Product → Product) (ps : List Product) :
    List Product :=
  ps.map (fun p => if p.id == pid then f p else p)

/-- `prisma.user.update({ where: { id: uid } })` over the list model. -/
def updateUserById (uid : Nat) (f : User → User) (us : List User) : List User :=
  us.map (fun u => if u.id == uid then f u else u)

/-- `prisma.order.update({ where: { id: oid } })` over the list model. -/
def updateOrderById (oid : Nat) (f : Order → Order) (os : List Order) :
    List Order :=
  os.map (fun o => if o.id == oid then f o else o)

/-- One line item of a `POST /orders` request body. -/
structure OrderItemReq where
  productId : Nat
  quantity : Nat
deriving DecidableEq, Repr

/-- The `POST /orders` request body after the zod `createOrderSchema`. -/
structure CreateOrderReq where
  items : List OrderItemReq
  shippingAddress : String
  shippingCity : String
  shippingCountry : String
  shippingPostal : Option String
  paymentMethod : PaymentMethod
  customerNotes : Option String
deriving DecidableEq, Repr

/-- The constraints `createOrderSchema.parse` enforces: at least one item,
positive integer quantities, minimum string lengths. -/
def createOrderSchemaOk (req : CreateOrderReq) : Bool :=
  !req.items.isEmpty
  && req.items.all (fun i => 1 ≤ i.quantity)
  && 5 ≤ req.shippingAddress.length
  && 2 ≤ req.shippingCity.length
  && 2 ≤ req.shippingCountry.length

/-- `String.prototype.padStart(n, c)`. -/
def padStart (s : String) (n : Nat) (c : Char) : String :=
  String.mk (List.replicate (n - s.length) c) ++ s

/-- The message of the `ApiError` thrown by the stock checks of
`createOrder` (both the pre-check and the in-transaction re-check). -/
def insufficientStockMsg (p : Product) (quantity : Nat) : String :=
  "Insufficient stock for " ++ p.name ++ ". Available: " ++ toString p.stock
    ++ ", Requested: " ++ toString quantity

/-- The stock pre-check loop of `createOrder` (before the transaction):
fails 400 when a tracked product has less stock than requested. A missing
product would make the non-null assertion `products.find(...)!` blow up,
modelled as a 500. -/
def checkStock (products : List Product) : List OrderItemReq → Except ApiError Unit
  | [] => Except.ok ()
  | item :: rest =>
    match findProduct products item.productId with
    | none => Except.error ⟨"TypeError", 500⟩
    | some product =>
      if product.trackInventory = true ∧ product.stock < (item.quantity : ℤ) then
        Except.error ⟨insufficientStockMsg product item.quantity, 400⟩
      else checkStock products rest

/-- The `validated.items.map(...)` block of `createOrder` building the order
item snapshots while accumulating the order subtotal. -/
def buildOrderItems (products : List Product) :
    List OrderItemReq → Except ApiError (List OrderItem × ℚ)
  | [] => Except.ok ([], 0)
  | item :: rest =>
    match findProduct products item.productId with
    | none => Except.error ⟨"TypeError", 500⟩
    | some product =>
      let itemSubtotal := product.price * (item.quantity : ℚ)
      match buildOrderItems products rest with
      | Except.error e => Except.error e
      | Except.ok (restItems, restSubtotal) =>
        Except.ok (⟨product.id, product.name, product.sku, product.thumbnail,
          product.price, item.quantity, itemSubtotal⟩ :: restItems,
          itemSubtotal + restSubtotal)

/-- The re-check loop at the top of the `prisma.$transaction` block of
`createOrder`: every product must still exist and have sufficient stock. -/
def txRecheck (products : List Product) : List OrderItemReq → Except ApiError Unit
  | [] => Except.ok ()
  | item :: rest =>
    match findProduct products item.productId with
    | none => Except.error ⟨"Product " ++ toString item.productId ++ " not found", 404⟩
    | some product =>
      if product.trackInventory = true ∧ product.stock < (item.quantity : ℤ) then
        Except.error ⟨insufficientStockMsg product item.quantity, 400⟩
      else txRecheck products rest

/-- The per-item deduction loop inside the `prisma.$transaction` block of
`createOrder`: refetch the product, skip it when it does not track
inventory (`product?.trackInventory`), otherwise guard against negative
stock, decrement stock, increment the sales counter, flip the status to
OUT_OF_STOCK when the new stock is exactly zero, and append a SALE
movement. -/
def txDeduct (orderId : Nat) (orderNumber : String) (uid : Nat) :
    List OrderItemReq → List Product × List InventoryMovement →
    Except ApiError (List Product × List InventoryMovement)
  | [], (ps, ms) => Except.ok (ps, ms)
  | item :: rest, (ps, ms) =>
    match findProduct ps item.productId with
    | none => txDeduct orderId orderNumber uid rest (ps, ms)
    | some product =>
      if product.trackInventory = true then
        let newStock := product.stock - (item.quantity : ℤ)
        if newStock < 0 then
          Except.error ⟨"Stock would go negative for " ++ product.name, 400⟩
        else
          txDeduct orderId orderNumber uid rest
            (updateById item.productId (fun p =>
              { p with stock := p.stock - (item.quantity : ℤ),
                       salesCount := p.salesCount + (item.quantity : ℤ),
                       status := if newStock = 0 then ProductStatus.OUT_OF_STOCK
                                 else product.status }) ps,
             ms ++ [⟨item.productId, -(item.quantity : ℤ), MovementType.SALE,
               some ("Order " ++ orderNumber), some orderId, uid⟩])
      else txDeduct orderId orderNumber uid rest (ps, ms)

/-- The order row `createOrder` persists: snapshot of customer and shipping
fields, the computed amounts (tax = subtotal * 0.15, shipping 0 over 500
else 25, discount 0, total = subtotal + tax + shipping - discount), fresh
PENDING / PENDING / UNFULFILLED statuses and no timestamps. -/
def mkOrder (uid : Nat) (user : User) (req : CreateOrderReq)
    (orderItems : List OrderItem) (subtotal : ℚ) (orderId : Nat)
    (orderNumber : String) : Order :=
  let tax := subtotal * 0.15
  let shippingCost : ℚ := if subtotal > 500 then 0 else 25
  let discount : ℚ := 0
  let total := subtotal + tax + shippingCost - discount
  { id := orderId
    orderNumber := orderNumber
    userId := uid
    customerName := user.name
    customerEmail := user.email
    customerPhone := user.phone.getD ""
    shippingAddress := req.shippingAddress
    shippingCity := req.shippingCity
    shippingCountry := req.shippingCountry
    shippingPostal := req.shippingPostal
    billingAddress := req.shippingAddress
    billingCity := req.shippingCity
    billingCountry := req.shippingCountry
    billingPostal := req.shippingPostal
    subtotal := subtotal
    tax := tax
    shippingCost := shippingCost
    discount := discount
    total := total
    orderStatus := OrderStatus.PENDING
    paymentStatus := PaymentStatus.PENDING
    fulfillmentStatus := FulfillmentStatus.UNFULFILLED
    paymentMethod := req.paymentMethod
    customerNotes := req.customerNotes
    internalNotes := none
    trackingNumber := none
    shippingCarrier := none
    items := orderItems
    shippedAt := none
    deliveredAt := none
    cancelledAt := none
    paidAt := none }

/-- `createOrder` from `src/controllers/order.controller.ts`: validate the
body, resolve the user and the products, pre-check stock, compute the
totals (15% tax, free shipping over 500, discount 0), generate the order
number from the order count, then run the atomic transaction that re-checks
stock, persists the order with its items, deducts stock with SALE
movements, and bumps the user aggregates.  An error anywhere returns the
original state (the transaction rolls back; nothing before it writes). -/
def createOrder (uid : Nat) (req : CreateOrderReq) (db : DB) :
    DB × Except ApiError Order :=
  if createOrderSchemaOk req = false then
    (db, Except.error ⟨"Validation failed", 400⟩)
  else
    match db.users.find? (fun u => u.id == uid) with
    | none => (db, Except.error ⟨"User not found", 404⟩)
    | some user =>
      let productIds := req.items.map (fun i => i.productId)
      let products := db.products.filter (fun p => productIds.contains p.id)
      if products.length ≠ productIds.length then
        (db, Except.error ⟨"Some products not found", 404⟩)
      else
        match checkStock products req.items with
        | Except.error e => (db, Except.error e)
        | Except.ok _ =>
          match buildOrderItems products req.items with
          | Except.error e => (db, Except.error e)
          | Except.ok (orderItems, subtotal) =>
            let orderNumber := "ORD-" ++ padStart (toString (db.orders.length + 1)) 6 '0'
            match txRecheck db.products req.items with
            | Except.error e => (db, Except.error e)
            | Except.ok _ =>
              let newOrder : Order :=
                mkOrder uid user req orderItems subtotal db.orders.length orderNumber
              match txDeduct db.orders.length orderNumber uid req.items (db.products, db.movements) with
              | Except.error e => (db, Except.error e)
              | Except.ok (products', movements') =>
                ({ db with
                    orders := db.orders ++ [newOrder]
                    products := products'
                    movements := movements'
                    users := updateUserById uid (fun u =>
                      { u with totalOrders := u.totalOrders + 1,
                               totalSpent := u.totalSpent + newOrder.total }) db.users },
                 Except.ok newOrder)

/-- The `PATCH /orders/:id/status` request body after
`updateOrderStatusSchema` (all fields optional; note it has no timestamp
fields). -/
structure UpdateOrderStatusReq where
  orderStatus : Option OrderStatus
  paymentStatus : Option PaymentStatus
  fulfillmentStatus : Option FulfillmentStatus
  trackingNumber : Option String
  shippingCarrier : Option String
  internalNotes : Option String
deriving DecidableEq, Repr

/-- Prisma update semantics for an optional field: a supplied value
overwrites, an absent one leaves the column unchanged. -/
def applyField {α : Type} (new cur : Option α) : Option α :=
  match new with
  | some v => some v
  | none => cur

/-- The `updateData` applied by `updateOrderStatus`: the explicit fields of
the request win; when only the payment status is supplied the order status
is derived through `getOrderStatusFromPayment`; `shippedAt` / `deliveredAt`
/ `cancelledAt` / `paidAt` are stamped with the current time whenever the
request carries the matching status — the source guards these with
`!updateData.shippedAt` etc., but `updateData` is spread from the parsed
body, which has no timestamp keys, so the guard is always passed. -/
def applyOrderUpdate (req : UpdateOrderStatusReq) (now : Nat)
    (currentOrder : Order) : Order :=
  let updOrderStatus : Option OrderStatus :=
    match req.orderStatus, req.paymentStatus with
    | none, some p => some (getOrderStatusFromPayment p)
    | o, _ => o
  let updShippedAt : Option Nat :=
    if req.orderStatus = some OrderStatus.SHIPPED then some now else none
  let updDeliveredAt : Option Nat :=
    if req.orderStatus = some OrderStatus.DELIVERED then some now else none
  let updCancelledAt : Option Nat :=
    if req.orderStatus = some OrderStatus.CANCELLED then some now else none
  let updPaidAt : Option Nat :=
    if req.paymentStatus = some PaymentStatus.PAID then some now else none
  { currentOrder with
      orderStatus := updOrderStatus.getD currentOrder.orderStatus
      paymentStatus := req.paymentStatus.getD currentOrder.paymentStatus
      fulfillmentStatus := req.fulfillmentStatus.getD currentOrder.fulfillmentStatus
      trackingNumber := applyField req.trackingNumber currentOrder.trackingNumber
      shippingCarrier := applyField req.shippingCarrier currentOrder.shippingCarrier
      internalNotes := applyField req.internalNotes currentOrder.internalNotes
      shippedAt := applyField updShippedAt currentOrder.shippedAt
      deliveredAt := applyField updDeliveredAt currentOrder.deliveredAt
      cancelledAt := applyField updCancelledAt currentOrder.cancelledAt
      paidAt := applyField updPaidAt currentOrder.paidAt }

/-- `updateOrderStatus` from `src/controllers/order.controller.ts`: load the
order, validate the order-status and payment-status transitions when the
request changes them, derive the order status from the payment status when
only the payment status is supplied, stamp `shippedAt` / `deliveredAt` /
`cancelledAt` / `paidAt` for the matching requested statuses (the source
guards on `!updateData.shippedAt` etc., but `updateData` is spread from the
parsed body which never carries those keys, so the guard never blocks), and
write the row. -/
def updateOrderStatus (id : Nat) (req : UpdateOrderStatusReq) (now : Nat)
    (db : DB) : DB × Except ApiError Order :=
  match db.orders.find? (fun o => o.id == id) with
  | none => (db, Except.error ⟨"Order not found", 404⟩)
  | some currentOrder =>
    match (match req.orderStatus with
           | some s => if s ≠ currentOrder.orderStatus then
               validateOrderStatusTransition currentOrder.orderStatus s
             else Except.ok ()
           | none => Except.ok ()) with
    | Except.error e => (db, Except.error e)
    | Except.ok _ =>
      match (match req.paymentStatus with
             | some p => if p ≠ currentOrder.paymentStatus then
                 validatePaymentStatusTransition currentOrder.paymentStatus p
               else Except.ok ()
             | none => Except.ok ()) with
      | Except.error e => (db, Except.error e)
      | Except.ok _ =>
        let newOrder := applyOrderUpdate req now currentOrder
        ({ db with orders := updateOrderById id (fun _ => newOrder) db.orders },
         Except.ok newOrder)

/-- The RETURN movement `cancelOrder` logs for one order item. -/
def returnMovementOf (orderId : Nat) (actorId : Nat) (it : OrderItem) :
    InventoryMovement :=
  ⟨it.productId, (it.quantity : ℤ), MovementType.RETURN,
   some "Order cancelled", some orderId, actorId⟩

/-- The stock-restoration loop of `cancelOrder`: for every item of the order
(tracked or not) increment the product stock and decrement the sales
counter. -/
def restoreStock : List OrderItem → List Product → List Product
  | [], ps => ps
  | it :: rest, ps =>
    restoreStock rest (updateById it.productId (fun p =>
      { p with stock := p.stock + (it.quantity : ℤ),
               salesCount := p.salesCount - (it.quantity : ℤ) }) ps)

/-- `cancelOrder` from `src/controllers/order.controller.ts`: load the order
with its items, check ownership for customers, require status PENDING or
CONFIRMED, restore stock and sales counters for every item, log RETURN
movements with reason "Order cancelled", then set the order to CANCELLED
with a cancellation timestamp. -/
def cancelOrder (orderId : Nat) (actorId : Nat) (actorRole : Role) (now : Nat)
    (db : DB) : DB × Except ApiError Order :=
  match db.orders.find? (fun o => o.id == orderId) with
  | none => (db, Except.error ⟨"Order not found", 404⟩)
  | some order =>
    if actorRole = Role.CUSTOMER ∧ order.userId ≠ actorId then
      (db, Except.error ⟨"Forbidden", 403⟩)
    else if ¬(order.orderStatus = OrderStatus.PENDING
              ∨ order.orderStatus = OrderStatus.CONFIRMED) then
      (db, Except.error ⟨"Cannot cancel order in current status", 400⟩)
    else
      let updatedOrder := { order with
        orderStatus := OrderStatus.CANCELLED, cancelledAt := some now }
      ({ db with
          products := restoreStock order.items db.products
          movements := db.movements ++ order.items.map (returnMovementOf order.id actorId)
          orders := updateOrderById order.id (fun o =>
            { o with orderStatus := OrderStatus.CANCELLED,
                     cancelledAt := some now }) db.orders },
       Except.ok updatedOrder)

/-- Stock-adjustment operation names of `updateStockSchema`. -/
inductive StockOperation
  | increase | decrease | set
deriving DecidableEq, Repr

/-- The `PATCH /inventory/:productId/stock` request body after
`updateStockSchema` (quantity a non-negative integer). -/
structure UpdateStockReq where
  quantity : Nat
  operation : StockOperation
  reason : Option String
  type : Option MovementType
deriving DecidableEq, Repr

/-- `updateStock` from `src/controllers/inventory.controller.ts`: resolve
the product (404), require `trackInventory` (400), compute the delta and the
new stock (`set` uses the difference, `increase` adds, `decrease` floors at
zero via `Math.max(0, ...)`), then in one transaction append the movement
row with the computed delta and write the new absolute stock, flipping the
status to OUT_OF_STOCK when it is not positive. -/
def updateStock (productId : Nat) (actorId : Nat) (req : UpdateStockReq)
    (db : DB) : DB × Except ApiError Unit :=
  match findProduct db.products productId with
  | none => (db, Except.error ⟨"Product not found", 404⟩)
  | some product =>
    if product.trackInventory = false then
      (db, Except.error ⟨"Product does not track inventory", 400⟩)
    else
      let deltaStock : ℤ × ℤ :=
        match req.operation with
        | .set => ((req.quantity : ℤ) - product.stock, (req.quantity : ℤ))
        | .increase => ((req.quantity : ℤ), product.stock + (req.quantity : ℤ))
        | .decrease => (-(req.quantity : ℤ), max 0 (product.stock - (req.quantity : ℤ)))
      let movementType := req.type.getD MovementType.ADJUSTMENT
      ({ db with
          movements := db.movements ++
            [⟨productId, deltaStock.1, movementType, req.reason, none, actorId⟩]
          products := updateById productId (fun p =>
            { p with stock := deltaStock.2,
                     status := if deltaStock.2 ≤ 0 then ProductStatus.OUT_OF_STOCK
                               else product.status }) db.products },
       Except.ok ())

/-- One API operation of the inventory-affecting kind the specification
quantifies over: order creation, order cancellation, stock adjustment. -/
inductive Op
  | create (uid : Nat) (req : CreateOrderReq)
  | cancel (orderId : Nat) (actorId : Nat) (actorRole : Role) (now : Nat)
  | adjust (productId : Nat) (actorId : Nat) (req : UpdateStockReq)
deriving Repr

/-- Apply one operation to the database, keeping the resulting state
whether the request succeeded or failed. -/
def applyOp (db : DB) : Op → DB
  | .create uid req => (createOrder uid req db).1
  | .cancel orderId actorId actorRole now =>
      (cancelOrder orderId actorId actorRole now db).1
  | .adjust productId actorId req => (updateStock productId actorId req db).1

/-- Run a sequence of operations left to right. -/
def runOps (db : DB) : List Op → DB
  | [] => db
  | op :: rest => runOps (applyOp db op) rest

/-- The inventory invariant: product ids are unique (they are a primary
key) and every tracked-inventory product has non-negative stock. -/
def StockInv (db : DB) : Prop :=
  (db.products.map (fun p => p.id)).Nodup
  ∧ ∀ p ∈ db.products, p.trackInventory = true → 0 ≤ p.stock

/-- A concrete customer used by the concrete scenarios. -/
def exampleUser : User :=
  ⟨0, "Test User", "tu@example.com", none, Role.CUSTOMER, 0, 0⟩

/-- A concrete tracked-inventory product priced 100 with stock 10. -/
def exampleProduct : Product :=
  ⟨1, "Widget", "SKU-1", none, 100, 10, 0, true, ProductStatus.ACTIVE⟩

/-- A concrete product that does not track inventory, stock 10. -/
def untrackedProduct : Product :=
  ⟨2, "Gadget", "SKU-2", none, 50, 10, 0, false, ProductStatus.ACTIVE⟩

/-- A concrete database: one customer, one tracked product, nothing else. -/
def exampleDb : DB :=
  ⟨[exampleUser], [exampleProduct], [], [], []⟩

/-- A concrete database whose only product does not track inventory. -/
def untrackedDb : DB :=
  ⟨[exampleUser], [untrackedProduct], [], [], []⟩

/-- A concrete order request: 2 units of product 1. -/
def exampleReq : CreateOrderReq :=
  ⟨[⟨1, 2⟩], "Addr 1234", "City", "Country", none,
   PaymentMethod.CASH_ON_DELIVERY, none⟩

/-- A concrete order request: 1 unit of the untracked product 2. -/
def untrackedReq : CreateOrderReq :=
  ⟨[⟨2, 1⟩], "Addr 1234", "City", "Country", none,
   PaymentMethod.CASH_ON_DELIVERY, none⟩

/-- A concrete order row in its freshly-created state (PENDING / PENDING /
UNFULFILLED, no timestamps). -/
def pendingOrder : Order :=
  { id := 0, orderNumber := "ORD-000001", userId := 0,
    customerName := "Test User", customerEmail := "tu@example.com",
    customerPhone := "", shippingAddress := "Addr 1234",
    shippingCity := "City", shippingCountry := "Country",
    shippingPostal := none, billingAddress := "Addr 1234",
    billingCity := "City", billingCountry := "Country", billingPostal := none,
    subtotal := 0, tax := 0, shippingCost := 0, discount := 0, total := 0,
    orderStatus := OrderStatus.PENDING, paymentStatus := PaymentStatus.PENDING,
    fulfillmentStatus := FulfillmentStatus.UNFULFILLED,
    paymentMethod := PaymentMethod.CASH_ON_DELIVERY,
    customerNotes := none, internalNotes := none, trackingNumber := none,
    shippingCarrier := none, items := [], shippedAt := none,
    deliveredAt := none, cancelledAt := none, paidAt := none }

/-- A concrete order already SHIPPED whose shipped timestamp was stamped at
instant 100. -/
def shippedOrder : Order :=
  { pendingOrder with orderStatus := OrderStatus.SHIPPED, shippedAt := some 100 }

/-- A database holding only `shippedOrder`. -/
def shippedDb : DB := ⟨[], [], [shippedOrder], [], []⟩

/-- A database holding only `pendingOrder`. -/
def pendingDb : DB := ⟨[], [], [pendingOrder], [], []⟩

/-- A status-update request that re-sends `orderStatus = SHIPPED` and
nothing else. -/
def shipAgainReq : UpdateOrderStatusReq :=
  ⟨some OrderStatus.SHIPPED, none, none, none, none, none⟩

/-- A status-update request that sets only `paymentStatus = PAID`. -/
def payOnlyReq : UpdateOrderStatusReq :=
  ⟨none, some PaymentStatus.PAID, none, none, none, none⟩

/-- A stock-adjustment request: decrease by 15 (more than the example
product's stock of 10). -/
def decReq : UpdateStockReq := ⟨15, StockOperation.decrease, none, none⟩

/-- A concrete order request asking for 11 units of product 1 (stock 10). -/
def overReq : CreateOrderReq :=
  ⟨[⟨1, 11⟩], "Addr 1234", "City", "Country", none,
   PaymentMethod.CASH_ON_DELIVERY, none⟩

/-- The example database with persisted settings whose `tax_rate` has been
changed to 0.30 (the seed stores `tax_rate` "0.15", `free_shipping_threshold`
"500", `default_shipping_cost` "25" as stringly-typed numbers). -/
def exampleDbTax30 : DB :=
  { exampleDb with settings := [
      ⟨"tax_rate", "0.30", "number", "general"⟩,
      ⟨"free_shipping_threshold", "500", "number", "shipping"⟩,
      ⟨"default_shipping_cost", "25", "number", "shipping"⟩] }

/-- C2: for every pair of order statuses, `validateOrderStatusTransition`
succeeds iff the pair is an edge of the allowed table (PENDING to CONFIRMED
or CANCELLED; CONFIRMED to PROCESSING or CANCELLED; PROCESSING to SHIPPED or
CANCELLED; SHIPPED to DELIVERED or CANCELLED; DELIVERED to REFUNDED;
CANCELLED and REFUNDED terminal); every pair outside the table raises a 400
error; in particular PENDING to PROCESSING and DELIVERED to CANCELLED fail
while PENDING to CONFIRMED succeeds. -/
theorem validateOrderStatusTransition_matches_spec_table :
    (∀ c n, validateOrderStatusTransition c n = Except.ok () ↔
      specAllowedOrderTransition c n = true)
    ∧ (∀ c n, specAllowedOrderTransition c n = false →
      isErr400 (validateOrderStatusTransition c n) = true)
    ∧ validateOrderStatusTransition OrderStatus.PENDING OrderStatus.PROCESSING ≠ Except.ok ()
    ∧ validateOrderStatusTransition OrderStatus.DELIVERED OrderStatus.CANCELLED ≠ Except.ok ()
    ∧ validateOrderStatusTransition OrderStatus.PENDING OrderStatus.CONFIRMED = Except.ok () := by
  decide

/-- Witness for C2: the rejection clause applied at the concrete pair
PENDING to PROCESSING. -/
theorem validateOrderStatusTransition_matches_spec_table_witness :
    specAllowedOrderTransition OrderStatus.PENDING OrderStatus.PROCESSING = false
    ∧ isErr400 (validateOrderStatusTransition OrderStatus.PENDING OrderStatus.PROCESSING) = true :=
  ⟨by decide,
   validateOrderStatusTransition_matches_spec_table.2.1
     OrderStatus.PENDING OrderStatus.PROCESSING (by decide)⟩

/-- C7: for every pair of payment statuses, `validatePaymentStatusTransition`
succeeds iff the pair is an edge of the table PENDING to PAID or FAILED, PAID
to REFUNDED or PARTIALLY_REFUNDED, FAILED to PENDING, PARTIALLY_REFUNDED to
REFUNDED, REFUNDED terminal; every other pair raises a 400 error. -/
theorem validatePaymentStatusTransition_matches_spec_table :
    (∀ c n, validatePaymentStatusTransition c n = Except.ok () ↔
      specAllowedPaymentTransition c n = true)
    ∧ (∀ c n, specAllowedPaymentTransition c n = false →
      isErr400 (validatePaymentStatusTransition c n) = true) := by
  decide

/-- Witness for C7: the rejection clause applied at the concrete pair
REFUNDED to PENDING. -/
theorem validatePaymentStatusTransition_matches_spec_table_witness :
    specAllowedPaymentTransition PaymentStatus.REFUNDED PaymentStatus.PENDING = false
    ∧ isErr400 (validatePaymentStatusTransition PaymentStatus.REFUNDED PaymentStatus.PENDING) = true :=
  ⟨by decide,
   validatePaymentStatusTransition_matches_spec_table.2
     PaymentStatus.REFUNDED PaymentStatus.PENDING (by decide)⟩

/-- Inversion for a successful `buildOrderItems` run: every produced item
snapshot has `subtotal = price * quantity`, and the accumulated subtotal is
the sum of the item subtotals. -/
theorem buildOrderItems_ok (ps : List Product) :
    ∀ (items : List OrderItemReq) (its : List OrderItem) (sub : ℚ),
      buildOrderItems ps items = Except.ok (its, sub) →
      (∀ it ∈ its, it.subtotal = it.price * (it.quantity : ℚ))
      ∧ sub = (its.map (fun it => it.subtotal)).sum := by
  intro items
  induction items with
  | nil =>
    intro its sub h
    simp only [buildOrderItems, Except.ok.injEq, Prod.mk.injEq] at h
    obtain ⟨h1, h2⟩ := h
    subst h1; subst h2
    simp
  | cons item rest ih =>
    intro its sub h
    simp only [buildOrderItems] at h
    cases hf : findProduct ps item.productId with
    | none => rw [hf] at h; exact absurd h (by simp)
    | some product =>
      rw [hf] at h
      cases hb : buildOrderItems ps rest with
      | error e => rw [hb] at h; exact absurd h (by simp)
      | ok pair =>
        obtain ⟨restItems, restSub⟩ := pair
        rw [hb] at h
        simp only [Except.ok.injEq, Prod.mk.injEq] at h
        obtain ⟨h1, h2⟩ := h
        obtain ⟨hall, hsum⟩ := ih restItems restSub hb
        subst h1; subst h2
        constructor
        · intro it hit
          rcases List.mem_cons.mp hit with hhd | htl
          · subst hhd; rfl
          · exact hall it htl
        · simp [hsum]

/-- Inversion for a successful `createOrder` run: the user resolved, the
items were built from the filtered product list, the transaction deduction
succeeded, the returned order is `mkOrder` and the new state is the old one
with the order appended, the deducted products, the appended SALE movements
and the bumped user aggregates. -/
theorem createOrder_ok_inv (uid : Nat) (req : CreateOrderReq) (db db' : DB)
    (o : Order) (h : createOrder uid req db = (db', Except.ok o)) :
    ∃ user orderItems subtotal products' movements',
      db.users.find? (fun u => u.id == uid) = some user
      ∧ buildOrderItems
          (db.products.filter (fun p => (req.items.map (fun i => i.productId)).contains p.id))
          req.items = Except.ok (orderItems, subtotal)
      ∧ txDeduct db.orders.length
          ("ORD-" ++ padStart (toString (db.orders.length + 1)) 6 '0') uid
          req.items (db.products, db.movements) = Except.ok (products', movements')
      ∧ o = mkOrder uid user req orderItems subtotal db.orders.length
          ("ORD-" ++ padStart (toString (db.orders.length + 1)) 6 '0')
      ∧ db' = { db with
          orders := db.orders ++ [o]
          products := products'
          movements := movements'
          users := updateUserById uid (fun u =>
            { u with totalOrders := u.totalOrders + 1,
                     totalSpent := u.totalSpent + o.total }) db.users } := by
  simp only [createOrder] at h
  split at h
  · exact absurd h (by simp)
  split at h
  · exact absurd h (by simp)
  next user huser =>
  split at h
  · exact absurd h (by simp)
  next hlen =>
  split at h
  · exact absurd h (by simp)
  next hcheck =>
  split at h
  · exact absurd h (by simp)
  next orderItems subtotal hbuild =>
  split at h
  · exact absurd h (by simp)
  next hrecheck =>
  split at h
  · exact absurd h (by simp)
  next products' movements' htx =>
  injection h with hdb hres
  injection hres with ho
  refine ⟨user, orderItems, subtotal, products', movements', huser, hbuild, htx, ho.symm, ?_⟩
  subst ho
  subst hdb
  rfl

/-- C3: for every order created from a non-empty item list, each item
subtotal is unit price times quantity, the order subtotal is the sum of the
item subtotals, tax is subtotal * 0.15, shipping is 0 when the subtotal
exceeds 500 and 25 otherwise, discount is 0, and total is
subtotal + tax + shipping - discount; in particular 2 units priced 100 give
subtotal 200, tax 30, shipping 25, total 255. -/
theorem createOrder_amounts :
    (∀ uid req db db' o, createOrder uid req db = (db', Except.ok o) →
      (∀ it ∈ o.items, it.subtotal = it.price * (it.quantity : ℚ))
      ∧ o.subtotal = (o.items.map (fun it => it.subtotal)).sum
      ∧ o.tax = o.subtotal * 0.15
      ∧ o.shippingCost = (if o.subtotal > 500 then (0 : ℚ) else 25)
      ∧ o.discount = 0
      ∧ o.total = o.subtotal + o.tax + o.shippingCost - o.discount)
    ∧ (∃ db' o, createOrder 0 exampleReq exampleDb = (db', Except.ok o)
      ∧ o.subtotal = 200 ∧ o.tax = 30 ∧ o.shippingCost = 25 ∧ o.total = 255) := by
  constructor
  · intro uid req db db' o h
    obtain ⟨user, orderItems, subtotal, products', movements', huser, hbuild, htx, ho, hdb⟩ :=
      createOrder_ok_inv uid req db db' o h
    obtain ⟨hall, hsum⟩ := buildOrderItems_ok _ _ _ _ hbuild
    subst ho
    exact ⟨hall, hsum, rfl, rfl, rfl, rfl⟩
  · have h1 : "Addr 1234".length = 9 := rfl
    have h2 : "City".length = 4 := rfl
    have h3 : "Country".length = 7 := rfl
    norm_num [createOrder, exampleDb, exampleReq, exampleUser, exampleProduct,
      createOrderSchemaOk, checkStock, buildOrderItems, txRecheck, txDeduct,
      findProduct, updateById, updateUserById, padStart, mkOrder, h1, h2, h3]
    refine ⟨_, _, ⟨rfl, rfl⟩, rfl, rfl, rfl, rfl⟩

/-- Witness for C3: the amount equations instantiated on the concrete
scenario (2 units of a product priced 100). -/
theorem createOrder_amounts_witness :
    ∃ db' o, createOrder 0 exampleReq exampleDb = (db', Except.ok o)
      ∧ o.tax = o.subtotal * 0.15 ∧ o.discount = 0
      ∧ o.total = o.subtotal + o.tax + o.shippingCost - o.discount := by
  obtain ⟨db', o, h, -⟩ := createOrder_amounts.2
  obtain ⟨-, -, htax, -, hdisc, htot⟩ := createOrder_amounts.1 0 exampleReq exampleDb db' o h
  exact ⟨db', o, h, htax, hdisc, htot⟩

/-- Inversion for a successful `updateOrderStatus` run: the order resolved,
both transition validations passed, the returned row is
`applyOrderUpdate` of the current row, and only that row changed. -/
theorem updateOrderStatus_ok_inv (id : Nat) (req : UpdateOrderStatusReq)
    (now : Nat) (db db' : DB) (o' : Order)
    (h : updateOrderStatus id req now db = (db', Except.ok o')) :
    ∃ currentOrder,
      db.orders.find? (fun o => o.id == id) = some currentOrder
      ∧ o' = applyOrderUpdate req now currentOrder
      ∧ db' = { db with orders := updateOrderById id (fun _ => o') db.orders } := by
  simp only [updateOrderStatus] at h
  split at h
  · exact absurd h (by simp)
  next currentOrder hfind =>
  split at h
  · exact absurd h (by simp)
  split at h
  · exact absurd h (by simp)
  injection h with hdb hres
  injection hres with ho
  refine ⟨currentOrder, hfind, ho.symm, ?_⟩
  subst ho
  exact hdb.symm

/-- C5 (code bug): re-sending `orderStatus = SHIPPED` for an order whose
shipped timestamp is already set does NOT leave the timestamp unchanged —
the handler stamps it again with the current time, because the guard
`!updateData.shippedAt` inspects the request payload (which never carries
`shippedAt`) instead of the stored order.  Concretely: an order shipped at
instant 100, updated again at instant 200, comes back with
`shippedAt = some 200`. -/
theorem updateOrderStatus_overwrites_shippedAt :
    ∃ db' o', updateOrderStatus 0 shipAgainReq 200 shippedDb = (db', Except.ok o')
      ∧ shippedOrder.shippedAt = some 100
      ∧ o'.shippedAt = some 200
      ∧ o'.shippedAt ≠ shippedOrder.shippedAt := by
  exact ⟨_, _, rfl, rfl, rfl, by decide⟩

/-- C6: `getOrderStatusFromPayment` maps PAID to CONFIRMED, FAILED to
PENDING, REFUNDED to REFUNDED and everything else to PENDING; a status
update carrying a payment status but no order status sets the order status
to the derived value, while an explicit order status in the request always
wins and suppresses the derivation. -/
theorem updateOrderStatus_payment_derivation :
    (getOrderStatusFromPayment PaymentStatus.PAID = OrderStatus.CONFIRMED
      ∧ getOrderStatusFromPayment PaymentStatus.FAILED = OrderStatus.PENDING
      ∧ getOrderStatusFromPayment PaymentStatus.REFUNDED = OrderStatus.REFUNDED
      ∧ ∀ p, p ≠ PaymentStatus.PAID → p ≠ PaymentStatus.REFUNDED →
          getOrderStatusFromPayment p = OrderStatus.PENDING)
    ∧ (∀ id req now db db' o' p,
        req.paymentStatus = some p → req.orderStatus = none →
        updateOrderStatus id req now db = (db', Except.ok o') →
        o'.orderStatus = getOrderStatusFromPayment p)
    ∧ (∀ id req now db db' o' s,
        req.orderStatus = some s →
        updateOrderStatus id req now db = (db', Except.ok o') →
        o'.orderStatus = s) := by
  refine ⟨⟨rfl, rfl, rfl, by decide⟩, ?_, ?_⟩
  · intro id req now db db' o' p hp ho h
    obtain ⟨cur, hfind, heq, -⟩ := updateOrderStatus_ok_inv id req now db db' o' h
    subst heq
    simp [applyOrderUpdate, hp, ho]
  · intro id req now db db' o' s hs h
    obtain ⟨cur, hfind, heq, -⟩ := updateOrderStatus_ok_inv id req now db db' o' h
    subst heq
    simp [applyOrderUpdate, hs]

/-- Witness for C6: updating the concrete PENDING order with only
`paymentStatus = PAID` derives order status CONFIRMED. -/
theorem updateOrderStatus_payment_derivation_witness :
    ∃ db' o', updateOrderStatus 0 payOnlyReq 200 pendingDb = (db', Except.ok o')
      ∧ o'.orderStatus = OrderStatus.CONFIRMED := by
  refine ⟨_, _, rfl, ?_⟩
  exact updateOrderStatus_payment_derivation.2.1 0 payOnlyReq 200 pendingDb
    _ _ PaymentStatus.PAID rfl rfl rfl

/-- Looking up the updated id after `updateById` sees the update applied to
the previous row (provided the update keeps ids). -/
theorem updateById_find_same (pid : Nat) (f : Product → Product)
    (ps : List Product) (hf : ∀ q, (f q).id = q.id) :
    findProduct (updateById pid f ps) pid = (findProduct ps pid).map f := by
  simp only [findProduct, updateById]
  induction ps with
  | nil => rfl
  | cons p rest ih =>
    simp only [List.map_cons]
    by_cases hp : (p.id == pid) = true
    · rw [if_pos hp,
        List.find?_cons_of_pos (p := fun q => q.id == pid) (a := f p) _
          (by show ((f p).id == pid) = true; rw [hf p]; exact hp),
        List.find?_cons_of_pos (p := fun q => q.id == pid) (a := p) _ hp]
      rfl
    · rw [if_neg hp,
        List.find?_cons_of_neg (p := fun q => q.id == pid) (a := p) _ hp,
        List.find?_cons_of_neg (p := fun q => q.id == pid) (a := p) _ hp]
      exact ih

/-- Looking up any other id after `updateById` sees the original list. -/
theorem updateById_find_other (pid' pid : Nat) (f : Product → Product)
    (ps : List Product) (hne : pid' ≠ pid) (hf : ∀ q, (f q).id = q.id) :
    findProduct (updateById pid' f ps) pid = findProduct ps pid := by
  simp only [findProduct, updateById]
  induction ps with
  | nil => rfl
  | cons p rest ih =>
    simp only [List.map_cons]
    by_cases hp : (p.id == pid') = true
    · have hpid : ¬((p.id == pid) = true) := by
        simp only [beq_iff_eq]
        intro hcon
        exact hne (by rw [← hcon]; exact (beq_iff_eq.mp hp).symm)
      rw [if_pos hp,
        List.find?_cons_of_neg (p := fun q => q.id == pid) (a := f p) _
          (by show ¬(((f p).id == pid) = true); rw [hf p]; exact hpid),
        List.find?_cons_of_neg (p := fun q => q.id == pid) (a := p) _ hpid]
      exact ih
    · rw [if_neg hp]
      by_cases hq : (p.id == pid) = true
      · rw [List.find?_cons_of_pos (p := fun q => q.id == pid) (a := p) _ hq,
          List.find?_cons_of_pos (p := fun q => q.id == pid) (a := p) _ hq]
      · rw [List.find?_cons_of_neg (p := fun q => q.id == pid) (a := p) _ hq,
          List.find?_cons_of_neg (p := fun q => q.id == pid) (a := p) _ hq]
        exact ih

/-- `updateById` never changes the list of ids (provided the update keeps
ids). -/
theorem updateById_map_id (pid : Nat) (f : Product → Product)
    (ps : List Product) (hf : ∀ q, (f q).id = q.id) :
    (updateById pid f ps).map (fun p => p.id) = ps.map (fun p => p.id) := by
  simp only [updateById]
  induction ps with
  | nil => rfl
  | cons p rest ih =>
    simp only [List.map_cons]
    by_cases hp : (p.id == pid) = true
    · rw [if_pos hp, hf p, ih]
    · rw [if_neg hp, ih]

/-- `updateById` preserves uniqueness of ids. -/
theorem updateById_nodup (pid : Nat) (f : Product → Product)
    (ps : List Product) (hf : ∀ q, (f q).id = q.id)
    (hnd : (ps.map (fun p => p.id)).Nodup) :
    ((updateById pid f ps).map (fun p => p.id)).Nodup := by
  rw [updateById_map_id pid f ps hf]
  exact hnd

/-- C10: a `decrease` stock adjustment on a tracked product always logs an
inventory movement whose `quantityDelta` is minus the requested quantity,
while the stock itself is floored at zero (`Math.max(0, stock - quantity)`),
so when the requested quantity exceeds the stock the logged delta differs
from the actual stock change; concretely, decreasing a stock of 10 by 15
logs delta -15 but only changes the stock by -10 to a final stock of 0. -/
theorem updateStock_decrease_movement :
    (∀ pid actor req db p, findProduct db.products pid = some p →
      p.trackInventory = true → req.operation = StockOperation.decrease →
      (updateStock pid actor req db).2 = Except.ok ()
      ∧ (updateStock pid actor req db).1.movements = db.movements ++
          [⟨pid, -(req.quantity : ℤ), req.type.getD MovementType.ADJUSTMENT,
            req.reason, none, actor⟩]
      ∧ (findProduct (updateStock pid actor req db).1.products pid).map
          (fun q => q.stock) = some (max 0 (p.stock - (req.quantity : ℤ)))
      ∧ (p.stock < (req.quantity : ℤ) →
          (findProduct (updateStock pid actor req db).1.products pid).map
            (fun q => q.stock) = some 0))
    ∧ ((updateStock 1 0 decReq exampleDb).1.movements.map
        (fun m => m.quantityDelta) = [-15]
      ∧ (findProduct (updateStock 1 0 decReq exampleDb).1.products 1).map
          (fun q => q.stock) = some 0
      ∧ ((-15 : ℤ) ≠ 0 - exampleProduct.stock)) := by
  constructor
  · intro pid actor req db p hfind htrack hop
    refine ⟨?_, ?_, ?_, ?_⟩
    · simp [updateStock, hfind, htrack, hop]
    · simp [updateStock, hfind, htrack, hop]
    · simp only [updateStock, hfind, htrack, hop]
      simp only [Bool.true_eq_false, if_false]
      rw [updateById_find_same pid _ db.products]
      · rw [hfind]; rfl
      · intro q; rfl
    · intro hlt
      simp only [updateStock, hfind, htrack, hop]
      simp only [Bool.true_eq_false, if_false]
      rw [updateById_find_same pid _ db.products]
      · rw [hfind]
        simp only [Option.map_some']
        congr 1
        omega
      · intro q; rfl
  · refine ⟨by decide, by decide, by decide⟩

/-- Witness for C10: decreasing the example product (stock 10) by 15 logs
delta -15 and floors the stock at 0. -/
theorem updateStock_decrease_movement_witness :
    findProduct exampleDb.products 1 = some exampleProduct
    ∧ (updateStock 1 0 decReq exampleDb).2 = Except.ok ()
    ∧ (updateStock 1 0 decReq exampleDb).1.movements =
        [⟨1, -15, MovementType.ADJUSTMENT, none, none, 0⟩]
    ∧ (findProduct (updateStock 1 0 decReq exampleDb).1.products 1).map
        (fun q => q.stock) = some 0 := by
  have h := updateStock_decrease_movement.1 1 0 decReq exampleDb exampleProduct
    rfl rfl rfl
  exact ⟨rfl, h.1, h.2.1, h.2.2.2 (by decide)⟩

/-- C9 counterexample: with the stored `tax_rate` setting changed to 0.30,
an order of 2 units priced 100 (subtotal 200) is still created with tax 30 =
200 * 0.15, not 60 = 200 * 0.30 — `createOrder` hard-codes the rate and
never reads the settings table. -/
theorem createOrder_ignores_changed_tax_setting :
    ((createOrder 0 exampleReq exampleDbTax30).2.toOption.map (fun o => o.tax))
        = some 30
    ∧ ((createOrder 0 exampleReq exampleDb).2.toOption.map (fun o => o.tax))
        = some 30
    ∧ (30 : ℚ) ≠ 200 * (30 / 100) := by
  have h1 : "Addr 1234".length = 9 := rfl
  have h2 : "City".length = 4 := rfl
  have h3 : "Country".length = 7 := rfl
  refine ⟨?_, ?_, by norm_num⟩ <;>
    norm_num [createOrder, exampleDbTax30, exampleDb, exampleReq, exampleUser,
      exampleProduct, createOrderSchemaOk, checkStock, buildOrderItems,
      txRecheck, txDeduct, findProduct, updateById, updateUserById, padStart,
      mkOrder, Except.toOption, h1, h2, h3]

/-- C9 amended: the order-total computation is independent of the persisted
settings — `createOrder` run against a database with any other settings list
produces the identical response and identical user/product/order/movement
tables, using the hard-coded tax rate 0.15, threshold 500 and shipping cost
25. -/
theorem createOrder_independent_of_settings (uid : Nat) (req : CreateOrderReq)
    (db : DB) (l : List Setting) :
    (createOrder uid req { db with settings := l }).2 = (createOrder uid req db).2
    ∧ ((createOrder uid req { db with settings := l }).1).products
        = ((createOrder uid req db).1).products
    ∧ ((createOrder uid req { db with settings := l }).1).orders
        = ((createOrder uid req db).1).orders
    ∧ ((createOrder uid req { db with settings := l }).1).users
        = ((createOrder uid req db).1).users
    ∧ ((createOrder uid req { db with settings := l }).1).movements
        = ((createOrder uid req db).1).movements := by
  refine ⟨?_, ?_, ?_, ?_, ?_⟩ <;>
    (simp only [createOrder]
     repeat' split) <;>
    simp_all

/-- Filtering the product table to the requested ids does not change the
lookup of a requested id (`prisma.product.findMany({ id: { in } })` keeps
every matching row in order). -/
theorem findProduct_filter_contains (pids : List Nat) (pid : Nat)
    (ps : List Product) (hmem : pids.contains pid = true) :
    findProduct (ps.filter (fun p => pids.contains p.id)) pid
      = findProduct ps pid := by
  induction ps with
  | nil => rfl
  | cons p rest ih =>
    by_cases hq : (p.id == pid) = true
    · have hkeep : pids.contains p.id = true := by
        rw [beq_iff_eq.mp hq]; exact hmem
      rw [List.filter_cons_of_pos (p := fun q => pids.contains q.id) (a := p) hkeep]
      simp only [findProduct] at ih ⊢
      rw [List.find?_cons_of_pos (p := fun q => q.id == pid) (a := p) _ hq,
        List.find?_cons_of_pos (p := fun q => q.id == pid) (a := p) _ hq]
    · by_cases hkeep : pids.contains p.id = true
      · rw [List.filter_cons_of_pos (p := fun q => pids.contains q.id) (a := p) hkeep]
        simp only [findProduct] at ih ⊢
        rw [List.find?_cons_of_neg (p := fun q => q.id == pid) (a := p) _ hq,
          List.find?_cons_of_neg (p := fun q => q.id == pid) (a := p) _ hq]
        exact ih
      · rw [List.filter_cons_of_neg (p := fun q => pids.contains q.id) (a := p) (by simpa using hkeep)]
        simp only [findProduct] at ih ⊢
        rw [List.find?_cons_of_neg (p := fun q => q.id == pid) (a := p) _ hq]
        exact ih

/-- When every requested product resolves and some requested quantity
exceeds a tracked product's stock, the pre-check loop of `createOrder`
fails with the 400 insufficient-stock error for one of the offending
items. -/
theorem checkStock_insufficient (products : List Product) :
    ∀ items : List OrderItemReq,
      (∀ it ∈ items, ∃ p, findProduct products it.productId = some p) →
      (∃ it ∈ items, ∃ p, findProduct products it.productId = some p
        ∧ p.trackInventory = true ∧ p.stock < (it.quantity : ℤ)) →
      ∃ it ∈ items, ∃ p, findProduct products it.productId = some p
        ∧ p.trackInventory = true ∧ p.stock < (it.quantity : ℤ)
        ∧ checkStock products items
            = Except.error ⟨insufficientStockMsg p it.quantity, 400⟩ := by
  intro items
  induction items with
  | nil =>
    intro _ hover
    simp at hover
  | cons item rest ih =>
    intro hfound hover
    obtain ⟨p, hp⟩ := hfound item (List.mem_cons_self item rest)
    by_cases hc : p.trackInventory = true ∧ p.stock < (item.quantity : ℤ)
    · refine ⟨item, List.mem_cons_self item rest, p, hp, hc.1, hc.2, ?_⟩
      simp only [checkStock, hp]
      rw [if_pos hc]
    · obtain ⟨it, hitmem, q, hq, htr, hst⟩ := hover
      rcases List.mem_cons.mp hitmem with heq | hrest
    
      · subst heq
        rw [hp] at hq
        injection hq with hq
        subst hq
        exact absurd ⟨htr, hst⟩ hc
      · obtain ⟨it', hmem', p', hfind', htr', hst', hcheck⟩ :=
          ih (fun x hx => hfound x (List.mem_cons_of_mem item hx))
            ⟨it, hrest, q, hq, htr, hst⟩
        refine ⟨it', List.mem_cons_of_mem item hmem', p', hfind', htr', hst', ?_⟩
        simp only [checkStock, hp]
        rw [if_neg hc]
        exact hcheck

/-- C1: an order-creation request containing an item whose product tracks
inventory and whose quantity exceeds the current stock fails with the 400
insufficient-stock error, and the returned state is exactly the pre-state:
no order or items are persisted, no stock, sales counter or movement
changes, and the user's aggregates are untouched. -/
theorem createOrder_insufficient_stock_no_effect
    (uid : Nat) (req : CreateOrderReq) (db : DB) (user : User)
    (hschema : createOrderSchemaOk req = true)
    (huser : db.users.find? (fun u => u.id == uid) = some user)
    (hlen : (db.products.filter (fun p =>
        (req.items.map (fun i => i.productId)).contains p.id)).length
      = (req.items.map (fun i => i.productId)).length)
    (hfound : ∀ it ∈ req.items, ∃ p,
      findProduct db.products it.productId = some p)
    (hover : ∃ it ∈ req.items, ∃ p,
      findProduct db.products it.productId = some p
      ∧ p.trackInventory = true ∧ p.stock < (it.quantity : ℤ)) :
    ∃ e, createOrder uid req db = (db, Except.error e)
      ∧ e.statusCode = 400
      ∧ ∃ it ∈ req.items, ∃ p, findProduct db.products it.productId = some p
          ∧ p.trackInventory = true ∧ p.stock < (it.quantity : ℤ)
          ∧ e.message = insufficientStockMsg p it.quantity := by
  have hbridge : ∀ it ∈ req.items,
      findProduct (db.products.filter (fun p =>
        (req.items.map (fun i => i.productId)).contains p.id)) it.productId
      = findProduct db.products it.productId := by
    intro it hit
    refine findProduct_filter_contains _ _ _ ?_
    exact List.elem_iff.mpr (List.mem_map_of_mem (fun i => i.productId) hit)
  obtain ⟨it, hitmem, p, hfind, htr, hst, hcheck⟩ :=
    checkStock_insufficient _ req.items
      (fun x hx => ⟨(hfound x hx).choose, (hbridge x hx).trans (hfound x hx).choose_spec⟩)
      (by
        obtain ⟨it, hitmem, p, hfind, htr, hst⟩ := hover
        exact ⟨it, hitmem, p, (hbridge it hitmem).trans hfind, htr, hst⟩)
  refine ⟨⟨insufficientStockMsg p it.quantity, 400⟩, ?_, rfl,
    it, hitmem, p, (hbridge it hitmem).symm.trans hfind, htr, hst, rfl⟩
  simp only [createOrder, huser, hschema, hlen]
  simp only [Bool.true_eq_false, if_false, ne_eq, not_true_eq_false]
  rw [hcheck]

/-- Witness for C1: requesting 11 units of the example product (stock 10)
fails with a 400 error and leaves the database exactly as it was. -/
theorem createOrder_insufficient_stock_no_effect_witness :
    ∃ e, createOrder 0 overReq exampleDb = (exampleDb, Except.error e)
      ∧ e.statusCode = 400 := by
  obtain ⟨e, heq, h400, -⟩ :=
    createOrder_insufficient_stock_no_effect 0 overReq exampleDb exampleUser
      (by decide) rfl rfl
      (by
        intro it hit
        have hit' : it = ⟨1, 11⟩ := by simpa [overReq] using hit
        subst hit'
        exact ⟨exampleProduct, rfl⟩)
      ⟨⟨1, 11⟩, by decide, exampleProduct, rfl, rfl, by decide⟩
  exact ⟨e, heq, h400⟩

/-- Every element of `updateById pid f ps` is either an original element or
`f` of an original element whose id matches `pid`. -/
theorem mem_updateById (pid : Nat) (f : Product → Product) (ps : List Product)
    (q' : Product) (h : q' ∈ updateById pid f ps) :
    ∃ q ∈ ps, q' = f q ∧ (q.id == pid) = true ∨ q' = q := by
  obtain ⟨q, hq, heq⟩ := List.mem_map.mp h
  by_cases hid : (q.id == pid) = true
  · rw [if_pos hid] at heq
    exact ⟨q, hq, Or.inl ⟨heq.symm, hid⟩⟩
  · rw [if_neg hid] at heq
    exact ⟨q, hq, Or.inr heq.symm⟩

/-- With unique ids, any list element whose id matches a successful lookup
is the looked-up row itself. -/
theorem findProduct_eq_of_nodup (ps : List Product) (pid : Nat) (p q : Product)
    (hnd : (ps.map (fun x => x.id)).Nodup)
    (hfind : findProduct ps pid = some p) (hq : q ∈ ps) (hqid : q.id = pid) :
    q = p := by
  induction ps with
  | nil => cases hq
  | cons r rest ih =>
    simp only [findProduct] at hfind
    simp only [List.map_cons, List.nodup_cons] at hnd
    by_cases hr : (r.id == pid) = true
    · rw [List.find?_cons_of_pos (p := fun x => x.id == pid) (a := r) _ hr] at hfind
      injection hfind with hfind
      rcases List.mem_cons.mp hq with hqr | hqrest
      · rw [hqr, hfind]
      · have hmm : q.id ∈ List.map (fun x => x.id) rest :=
          List.mem_map_of_mem (fun x => x.id) hqrest
        have hrq : r.id = q.id := by rw [beq_iff_eq.mp hr, hqid]
        exact absurd (by rw [hrq]; exact hmm) hnd.1
    · rw [List.find?_cons_of_neg (p := fun x => x.id == pid) (a := r) _ hr] at hfind
      rcases List.mem_cons.mp hq with hqr | hqrest
      · exact absurd (by rw [← hqr]; simpa using hqid) hr
      · exact ih hnd.2 hfind hqrest

/-- The in-transaction deduction loop of `createOrder` preserves the
inventory invariant: every decrement is guarded by the explicit
negative-stock check. -/
theorem txDeduct_preserves_inv (oid : Nat) (onum : String) (uid : Nat) :
    ∀ (items : List OrderItemReq) (ps : List Product)
      (ms : List InventoryMovement) (ps' : List Product)
      (ms' : List InventoryMovement),
      (ps.map (fun p => p.id)).Nodup →
      (∀ p ∈ ps, p.trackInventory = true → 0 ≤ p.stock) →
      txDeduct oid onum uid items (ps, ms) = Except.ok (ps', ms') →
      (ps'.map (fun p => p.id)).Nodup
      ∧ ∀ p ∈ ps', p.trackInventory = true → 0 ≤ p.stock := by
  intro items
  induction items with
  | nil =>
    intro ps ms ps' ms' hnd hpos h
    simp only [txDeduct, Except.ok.injEq, Prod.mk.injEq] at h
    obtain ⟨h1, h2⟩ := h
    subst h1
    exact ⟨hnd, hpos⟩
  | cons item rest ih =>
    intro ps ms ps' ms' hnd hpos h
    simp only [txDeduct] at h
    split at h
    · exact ih ps ms ps' ms' hnd hpos h
    next product hf =>
      split at h
      · split at h
        · exact absurd h (by simp)
        next hneg =>
          refine ih _ _ _ _ ?_ ?_ h
          · rw [updateById_map_id]
            · exact hnd
            · intro q; rfl
          · intro q' hq' htr'
            obtain ⟨q, hq, hcase⟩ := mem_updateById _ _ _ _ hq'
            rcases hcase with ⟨hfq, hqid⟩ | hsame
            · have hqp : q = product :=
                findProduct_eq_of_nodup ps item.productId product q hnd hf hq
                  (beq_iff_eq.mp hqid)
              subst hqp
              subst hfq
              simpa using le_of_not_lt hneg
            · rw [hsame] at htr' ⊢
              exact hpos q hq htr'
      · exact ih ps ms ps' ms' hnd hpos h

/-- The stock-restoration loop of `cancelOrder` preserves the inventory
invariant: it only increments stock. -/
theorem restoreStock_preserves_inv :
    ∀ (items : List OrderItem) (ps : List Product),
      (ps.map (fun p => p.id)).Nodup →
      (∀ p ∈ ps, p.trackInventory = true → 0 ≤ p.stock) →
      ((restoreStock items ps).map (fun p => p.id)).Nodup
      ∧ ∀ p ∈ restoreStock items ps, p.trackInventory = true → 0 ≤ p.stock := by
  intro items
  induction items with
  | nil => intro ps hnd hpos; exact ⟨hnd, hpos⟩
  | cons it rest ih =>
    intro ps hnd hpos
    simp only [restoreStock]
    refine ih _ ?_ ?_
    · rw [updateById_map_id]
      · exact hnd
      · intro q; rfl
    · intro q' hq' htr'
      obtain ⟨q, hq, hcase⟩ := mem_updateById _ _ _ _ hq'
      rcases hcase with ⟨hfq, -⟩ | hsame
      · subst hfq
        have := hpos q hq htr'
        simp only []
        have hqty : (0 : ℤ) ≤ (it.quantity : ℤ) := Int.ofNat_nonneg _
        simpa using add_nonneg this hqty
      · rw [hsame] at htr' ⊢
        exact hpos q hq htr'

/-- A failed `createOrder` returns the untouched input state. -/
theorem createOrder_error_state (uid : Nat) (req : CreateOrderReq) (db db' : DB)
    (e : ApiError) (h : createOrder uid req db = (db', Except.error e)) :
    db' = db := by
  simp only [createOrder] at h
  repeat' split at h
  all_goals injection h with h1 h2
  all_goals first
    | exact h1.symm
    | injection h2

/-- `createOrder` preserves the inventory invariant. -/
theorem createOrder_preserves_inv (uid : Nat) (req : CreateOrderReq) (db : DB)
    (hinv : StockInv db) : StockInv (createOrder uid req db).1 := by
  rcases h : createOrder uid req db with ⟨db', res⟩
  cases res with
  | error e =>
    have := createOrder_error_state uid req db db' e h
    simpa [this] using hinv
  | ok o =>
    obtain ⟨user, items, sub, ps', ms', -, -, htx, -, hdb⟩ :=
      createOrder_ok_inv uid req db db' o h
    obtain ⟨hnd', hpos'⟩ :=
      txDeduct_preserves_inv _ _ _ req.items db.products db.movements ps' ms'
        hinv.1 hinv.2 htx
    subst hdb
    exact ⟨hnd', hpos'⟩

/-- `cancelOrder` preserves the inventory invariant. -/
theorem cancelOrder_preserves_inv (oid actorId : Nat) (role : Role) (now : Nat)
    (db : DB) (hinv : StockInv db) :
    StockInv (cancelOrder oid actorId role now db).1 := by
  simp only [cancelOrder]
  split
  · exact hinv
  split
  · exact hinv
  split
  · exact hinv
  obtain ⟨hnd', hpos'⟩ := restoreStock_preserves_inv _ db.products hinv.1 hinv.2
  exact ⟨hnd', hpos'⟩

/-- `updateStock` preserves the inventory invariant: `set` writes the
requested non-negative quantity, `increase` adds to a non-negative stock,
`decrease` floors at zero. -/
theorem updateStock_preserves_inv (pid actorId : Nat) (req : UpdateStockReq)
    (db : DB) (hinv : StockInv db) :
    StockInv (updateStock pid actorId req db).1 := by
  simp only [updateStock]
  split
  · exact hinv
  next product hf =>
    split
    · exact hinv
    next htr =>
      have hprodmem : product ∈ db.products := List.mem_of_find?_eq_some hf
      have hprodpos : 0 ≤ product.stock :=
        hinv.2 product hprodmem (by simpa using htr)
      refine ⟨?_, ?_⟩
      · exact updateById_nodup pid _ db.products (fun q => rfl) hinv.1
      · intro q' hq' htr'
        obtain ⟨q, hq, hcase⟩ := mem_updateById pid _ db.products q' hq'
        rcases hcase with ⟨hfq, -⟩ | hsame
        · subst hfq
          cases hop : req.operation
          · exact add_nonneg hprodpos (Int.ofNat_nonneg _)
          · exact le_max_left _ _
          · exact Int.ofNat_nonneg _
        · rw [hsame] at htr' ⊢
          exact hinv.2 q hq htr'

/-- C8: starting from a database with unique product ids in which every
tracked-inventory product has non-negative stock, any sequence of
order-creation, order-cancellation and stock-adjustment operations keeps
every tracked-inventory product's stock non-negative (creation is guarded
by the in-transaction negative-stock check and the decrease adjustment is
floored at zero). -/
theorem stock_nonneg_after_ops :
    ∀ (ops : List Op) (db : DB),
      (db.products.map (fun p => p.id)).Nodup →
      (∀ p ∈ db.products, p.trackInventory = true → 0 ≤ p.stock) →
      ∀ p ∈ (runOps db ops).products, p.trackInventory = true → 0 ≤ p.stock := by
  intro ops
  induction ops with
  | nil => intro db hnd hpos; exact hpos
  | cons op rest ih =>
    intro db hnd hpos
    have hstep : StockInv (applyOp db op) := by
      cases op with
      | create uid req => exact createOrder_preserves_inv uid req db ⟨hnd, hpos⟩
      | cancel oid aid role now =>
        exact cancelOrder_preserves_inv oid aid role now db ⟨hnd, hpos⟩
      | adjust pid aid req => exact updateStock_preserves_inv pid aid req db ⟨hnd, hpos⟩
    exact ih (applyOp db op) hstep.1 hstep.2

/-- Witness for C8: running the example database through a decrease-by-15
adjustment followed by an order creation leaves the tracked product at
stock 0, which is non-negative as the invariant theorem guarantees. -/
theorem stock_nonneg_after_ops_witness :
    ∃ p, findProduct (runOps exampleDb
        [Op.adjust 1 0 decReq, Op.create 0 exampleReq]).products 1 = some p
      ∧ p.trackInventory = true ∧ 0 ≤ p.stock := by
  have hfind : findProduct (runOps exampleDb
      [Op.adjust 1 0 decReq, Op.create 0 exampleReq]).products 1
      = some ⟨1, "Widget", "SKU-1", none, 100, 0, 0, true,
          ProductStatus.OUT_OF_STOCK⟩ := rfl
  refine ⟨_, hfind, rfl, ?_⟩
  exact stock_nonneg_after_ops [Op.adjust 1 0 decReq, Op.create 0 exampleReq]
    exampleDb (by decide) (by decide) _ (List.mem_of_find?_eq_some hfind) rfl

/-- The item snapshots built by `buildOrderItems` carry exactly the
requested product ids and quantities, in order. -/
theorem buildOrderItems_pairs (products : List Product) :
    ∀ (items : List OrderItemReq) (its : List OrderItem) (sub : ℚ),
      buildOrderItems products items = Except.ok (its, sub) →
      its.map (fun it => (it.productId, it.quantity))
        = items.map (fun i => (i.productId, i.quantity)) := by
  intro items
  induction items with
  | nil =>
    intro its sub h
    simp only [buildOrderItems, Except.ok.injEq, Prod.mk.injEq] at h
    rw [← h.1]
    rfl
  | cons item rest ih =>
    intro its sub h
    simp only [buildOrderItems] at h
    cases hf : findProduct products item.productId with
    | none => rw [hf] at h; exact absurd h (by simp)
    | some product =>
      rw [hf] at h
      cases hb : buildOrderItems products rest with
      | error e => rw [hb] at h; exact absurd h (by simp)
      | ok pair =>
        obtain ⟨restItems, restSub⟩ := pair
        rw [hb] at h
        simp only [Except.ok.injEq, Prod.mk.injEq] at h
        obtain ⟨h1, -⟩ := h
        subst h1
        simp only [List.map_cons]
        have hfind : List.find? (fun p => p.id == item.productId) products
            = some product := hf
        have hpid : product.id = item.productId := by
          simpa using List.find?_some hfind
        rw [hpid]
        exact congrArg _ (ih restItems restSub hb)

/-- A product id is absent from the lookup exactly when it is absent from
the id column. -/
theorem findProduct_eq_none_iff (ps : List Product) (pid : Nat) :
    findProduct ps pid = none ↔ pid ∉ ps.map (fun p => p.id) := by
  simp only [findProduct, List.find?_eq_none, List.mem_map, beq_iff_eq]
  constructor
  · rintro h ⟨p, hp, hpid⟩
    exact h p hp hpid
  · intro h p hp hpid
    exact h ⟨p, hp, hpid⟩

/-- `restoreStock` never changes the id column. -/
theorem restoreStock_map_id :
    ∀ (oitems : List OrderItem) (ps : List Product),
      (restoreStock oitems ps).map (fun p => p.id) = ps.map (fun p => p.id) := by
  intro oitems
  induction oitems with
  | nil => intro ps; rfl
  | cons it rest ih =>
    intro ps
    simp only [restoreStock]
    rw [ih, updateById_map_id]
    intro q; rfl

/-- The transaction deduction loop never changes the id column. -/
theorem txDeduct_map_id (oid : Nat) (onum : String) (uid : Nat) :
    ∀ (items : List OrderItemReq) (ps : List Product)
      (ms ms' : List InventoryMovement) (ps' : List Product),
      txDeduct oid onum uid items (ps, ms) = Except.ok (ps', ms') →
      ps'.map (fun p => p.id) = ps.map (fun p => p.id) := by
  intro items
  induction items with
  | nil =>
    intro ps ms ms' ps' h
    simp only [txDeduct, Except.ok.injEq, Prod.mk.injEq] at h
    rw [← h.1]
  | cons item rest ih =>
    intro ps ms ms' ps' h
    simp only [txDeduct] at h
    split at h
    · exact ih ps ms ms' ps' h
    next product hf =>
      split at h
      · split at h
        · exact absurd h (by simp)
        · rw [ih _ _ _ _ h, updateById_map_id]
          intro q; rfl
      · exact ih ps ms ms' ps' h

/-- Two row updates targeting different ids commute. -/
theorem updateById_comm (a b : Nat) (f g : Product → Product)
    (ps : List Product) (hab : a ≠ b)
    (hf : ∀ q, (f q).id = q.id) (hg : ∀ q, (g q).id = q.id) :
    updateById a f (updateById b g ps) = updateById b g (updateById a f ps) := by
  simp only [updateById, List.map_map]
  apply List.map_congr_left
  intro p _
  simp only [Function.comp]
  by_cases hb : (p.id == b) = true <;> by_cases ha : (p.id == a) = true
  · exact absurd (by rw [← beq_iff_eq.mp ha, ← beq_iff_eq.mp hb]) hab
  · rw [if_pos hb, if_neg ha, if_pos hb,
      if_neg (show ¬(((g p).id == a) = true) from by rw [hg p]; exact ha)]
  · rw [if_neg hb, if_pos ha,
      if_neg (show ¬(((f p).id == b) = true) from by rw [hf p]; exact hb)]
  · rw [if_neg hb, if_neg ha, if_neg hb]

/-- `restoreStock` commutes with an update of a product none of its items
touch. -/
theorem restoreStock_updateById_comm :
    ∀ (oitems : List OrderItem) (pid : Nat) (f : Product → Product)
      (ps : List Product),
      pid ∉ oitems.map (fun it => it.productId) →
      (∀ q, (f q).id = q.id) →
      restoreStock oitems (updateById pid f ps)
        = updateById pid f (restoreStock oitems ps) := by
  intro oitems
  induction oitems with
  | nil => intro pid f ps _ _; rfl
  | cons it rest ih =>
    intro pid f ps hpid hf
    simp only [List.map_cons, List.mem_cons, not_or] at hpid
    simp only [restoreStock]
    rw [updateById_comm it.productId pid _ f ps (fun hcc => hpid.1 hcc.symm)]
    · exact ih pid f _ hpid.2 hf
    · intro q; rfl
    · exact hf

/-- `restoreStock` leaves untouched ids unchanged under lookup. -/
theorem restoreStock_find_untouched :
    ∀ (oitems : List OrderItem) (pid : Nat) (ps : List Product),
      pid ∉ oitems.map (fun it => it.productId) →
      findProduct (restoreStock oitems ps) pid = findProduct ps pid := by
  intro oitems
  induction oitems with
  | nil => intro pid ps _; rfl
  | cons it rest ih =>
    intro pid ps hpid
    simp only [List.map_cons, List.mem_cons, not_or] at hpid
    simp only [restoreStock]
    rw [ih pid _ hpid.2,
      updateById_find_other it.productId pid _ ps (fun hcc => hpid.1 hcc.symm)]
    intro q; rfl

/-- The transaction deduction loop leaves untouched ids unchanged under
lookup. -/
theorem txDeduct_find_untouched (oid : Nat) (onum : String) (uid : Nat) :
    ∀ (items : List OrderItemReq) (pid : Nat) (ps : List Product)
      (ms ms' : List InventoryMovement) (ps' : List Product),
      pid ∉ items.map (fun it => it.productId) →
      txDeduct oid onum uid items (ps, ms) = Except.ok (ps', ms') →
      findProduct ps' pid = findProduct ps pid := by
  intro items
  induction items with
  | nil =>
    intro pid ps ms ms' ps' _ h
    simp only [txDeduct, Except.ok.injEq, Prod.mk.injEq] at h
    rw [← h.1]
  | cons item rest ih =>
    intro pid ps ms ms' ps' hpid h
    simp only [List.map_cons, List.mem_cons, not_or] at hpid
    simp only [txDeduct] at h
    split at h
    · exact ih pid ps ms ms' ps' hpid.2 h
    next product hf =>
      split at h
      · split at h
        · exact absurd h (by simp)
        · rw [ih pid _ _ _ _ hpid.2 h,
            updateById_find_other item.productId pid _ ps
              (fun hcc => hpid.1 hcc.symm)]
          intro q; rfl
      · exact ih pid ps ms ms' ps' hpid.2 h

/-- Updating the freshly appended order row and looking it up again returns
the updated row, provided no existing order shares its id. -/
theorem find_updateOrderById_append (f : Order → Order)
    (hf : ∀ x, (f x).id = x.id) :
    ∀ (orders : List Order) (o : Order),
      (∀ ord ∈ orders, ord.id ≠ o.id) →
      (updateOrderById o.id f (orders ++ [o])).find? (fun x => x.id == o.id)
        = some (f o) := by
  intro orders
  induction orders with
  | nil =>
    intro o _
    simp only [updateOrderById, List.nil_append, List.map_cons, List.map_nil]
    rw [if_pos (by simp)]
    rw [List.find?_cons_of_pos (p := fun x => x.id == o.id) (a := f o) _
      (by show ((f o).id == o.id) = true; rw [hf o]; simp)]
  | cons r rest ih =>
    intro o hfresh
    have hr : ¬((r.id == o.id) = true) := by
      simpa using hfresh r (List.mem_cons_self r rest)
    simp only [updateOrderById, List.cons_append, List.map_cons]
    rw [if_neg hr]
    rw [List.find?_cons_of_neg (p := fun x => x.id == o.id) (a := r) _ hr]
    exact ih o (fun ord hord => hfresh ord (List.mem_cons_of_mem r hord))

/-- Key lemma for C4: after a successful transaction deduction over request
items with pairwise-distinct product ids whose products all track
inventory, running the cancellation restoration over item snapshots
carrying the same (productId, quantity) pairs restores the stock and the
sales counter of every requested product to its pre-order value. -/
theorem restore_after_deduct (oid : Nat) (onum : String) (uid : Nat) :
    ∀ (items : List OrderItemReq) (oitems : List OrderItem)
      (ps : List Product) (ms ms' : List InventoryMovement)
      (ps' : List Product),
      oitems.map (fun it => (it.productId, it.quantity))
        = items.map (fun i => (i.productId, i.quantity)) →
      (items.map (fun i => i.productId)).Nodup →
      (∀ it ∈ items, ∀ p, findProduct ps it.productId = some p →
        p.trackInventory = true) →
      txDeduct oid onum uid items (ps, ms) = Except.ok (ps', ms') →
      ∀ pid ∈ items.map (fun i => i.productId),
        (findProduct (restoreStock oitems ps') pid).map
            (fun p => (p.stock, p.salesCount))
          = (findProduct ps pid).map (fun p => (p.stock, p.salesCount)) := by
  intro items
  induction items with
  | nil =>
    intro oitems ps ms ms' ps' hcorr hnd htr h pid hpid
    simp at hpid
  | cons item rest ih =>
    intro oitems ps ms ms' ps' hcorr hnd htr h pid hpid
    cases oitems with
    | nil => simp at hcorr
    | cons oit orest =>
      simp only [List.map_cons, List.cons.injEq, Prod.mk.injEq] at hcorr
      obtain ⟨⟨hpid0, hqty0⟩, hcorr'⟩ := hcorr
      simp only [List.map_cons, List.nodup_cons] at hnd
      obtain ⟨hnotin, hnd'⟩ := hnd
      have horest : orest.map (fun it => it.productId)
          = rest.map (fun i => i.productId) := by
        have := congrArg (List.map Prod.fst) hcorr'
        simpa [List.map_map, Function.comp] using this
      have hnotin_orest : item.productId ∉ orest.map (fun it => it.productId) := by
        rw [horest]; exact hnotin
      simp only [List.map_cons, List.mem_cons] at hpid
      simp only [restoreStock, hpid0, hqty0]
      rw [restoreStock_updateById_comm orest item.productId
        (fun p => { p with stock := p.stock + (item.quantity : ℤ),
                           salesCount := p.salesCount - (item.quantity : ℤ) })
        ps' hnotin_orest (fun q => rfl)]
      simp only [txDeduct] at h
      split at h
      next hf =>
        rcases hpid with hpe | hpr
        · subst hpe
          rw [updateById_find_same item.productId
            (fun p => { p with stock := p.stock + (item.quantity : ℤ),
                               salesCount := p.salesCount - (item.quantity : ℤ) })
            (restoreStock orest ps') (fun q => rfl)]
          rw [restoreStock_find_untouched orest item.productId ps' hnotin_orest]
          have hps' : findProduct ps' item.productId = none := by
            rw [findProduct_eq_none_iff,
              txDeduct_map_id oid onum uid rest ps ms ms' ps' h,
              ← findProduct_eq_none_iff]
            exact hf
          rw [hps', hf]
          rfl
        · have hne : pid ≠ item.productId := fun hcc => hnotin (hcc ▸ hpr)
          rw [updateById_find_other item.productId pid
            (fun p => { p with stock := p.stock + (item.quantity : ℤ),
                               salesCount := p.salesCount - (item.quantity : ℤ) })
            (restoreStock orest ps') (fun hcc => hne hcc.symm) (fun q => rfl)]
          exact ih orest ps ms ms' ps' hcorr' hnd'
            (fun it' hit' p hp => htr it' (List.mem_cons_of_mem item hit') p hp)
            h pid hpr
      next product hf =>
        split at h
        next htrk =>
          split at h
          next hneg => exact absurd h (by simp)
          next hneg =>
            rcases hpid with hpe | hpr
            · subst hpe
              rw [updateById_find_same item.productId
                (fun p => { p with stock := p.stock + (item.quantity : ℤ),
                                   salesCount := p.salesCount - (item.quantity : ℤ) })
                (restoreStock orest ps') (fun q => rfl)]
              rw [restoreStock_find_untouched orest item.productId ps' hnotin_orest]
              rw [txDeduct_find_untouched oid onum uid rest item.productId
                _ _ _ _ hnotin h]
              rw [updateById_find_same item.productId
                (fun p => { p with stock := p.stock - (item.quantity : ℤ),
                                   salesCount := p.salesCount + (item.quantity : ℤ),
                                   status := if product.stock - (item.quantity : ℤ) = 0
                                     then ProductStatus.OUT_OF_STOCK
                                     else product.status })
                ps (fun q => rfl)]
              rw [hf]
              simp only [Option.map_some', Option.some.injEq, Prod.mk.injEq]
              constructor
              · ring
              · ring
            · have hne : pid ≠ item.productId := fun hcc => hnotin (hcc ▸ hpr)
              rw [updateById_find_other item.productId pid
                (fun p => { p with stock := p.stock + (item.quantity : ℤ),
                                   salesCount := p.salesCount - (item.quantity : ℤ) })
                (restoreStock orest ps') (fun hcc => hne hcc.symm) (fun q => rfl)]
              have htr1 : ∀ it' ∈ rest, ∀ p,
                  findProduct (updateById item.productId
                    (fun p => { p with stock := p.stock - (item.quantity : ℤ),
                                       salesCount := p.salesCount + (item.quantity : ℤ),
                                       status := if product.stock - (item.quantity : ℤ) = 0
                                         then ProductStatus.OUT_OF_STOCK
                                         else product.status })
                    ps) it'.productId = some p →
                  p.trackInventory = true := by
                intro it' hit' p hp
                have hne2 : it'.productId ≠ item.productId := by
                  intro hcc
                  exact hnotin (hcc ▸ List.mem_map_of_mem (fun i => i.productId) hit')
                rw [updateById_find_other item.productId it'.productId
                  (fun p => { p with stock := p.stock - (item.quantity : ℤ),
                                     salesCount := p.salesCount + (item.quantity : ℤ),
                                     status := if product.stock - (item.quantity : ℤ) = 0
                                       then ProductStatus.OUT_OF_STOCK
                                       else product.status })
                  ps (fun hcc => hne2 hcc.symm) (fun q => rfl)] at hp
                exact htr it' (List.mem_cons_of_mem item hit') p hp
              rw [ih orest _ _ _ _ hcorr' hnd' htr1 h pid hpr]
              rw [updateById_find_other item.productId pid
                (fun p => { p with stock := p.stock - (item.quantity : ℤ),
                                   salesCount := p.salesCount + (item.quantity : ℤ),
                                   status := if product.stock - (item.quantity : ℤ) = 0
                                     then ProductStatus.OUT_OF_STOCK
                                     else product.status })
                ps (fun hcc => hne hcc.symm) (fun q => rfl)]
        next htrk =>
          exact absurd (htr item (List.mem_cons_self item rest) product hf) htrk

/-- C4 (amended to orders whose items all reference tracked-inventory
products): cancelling an order in status PENDING or CONFIRMED right after
its creation restores, for each item, exactly the product stock and
sales-counter values that held before the order was created, appends one
RETURN movement per item with reason "Order cancelled" referencing the
order, and sets the order to CANCELLED with a cancellation timestamp. -/
theorem cancelOrder_restores (uid : Nat) (req : CreateOrderReq)
    (db0 dbc db' : DB) (o : Order) (s : OrderStatus)
    (actorId : Nat) (role : Role) (now' : Nat)
    (h1 : createOrder uid req db0 = (dbc, Except.ok o))
    (hdb' : db' = { dbc with
        orders := updateOrderById o.id
          (fun x => { x with orderStatus := s }) dbc.orders })
    (hs : s = OrderStatus.PENDING ∨ s = OrderStatus.CONFIRMED)
    (hnd_items : (req.items.map (fun i => i.productId)).Nodup)
    (htracked : ∀ it ∈ req.items, ∀ p,
      findProduct db0.products it.productId = some p → p.trackInventory = true)
    (hfresh : ∀ ord ∈ db0.orders, ord.id ≠ db0.orders.length)
    (hauth : role = Role.CUSTOMER → actorId = uid) :
    (∀ it ∈ o.items,
      (findProduct (cancelOrder o.id actorId role now' db').1.products
          it.productId).map (fun p => (p.stock, p.salesCount))
        = (findProduct db0.products it.productId).map
            (fun p => (p.stock, p.salesCount)))
    ∧ (cancelOrder o.id actorId role now' db').1.movements
        = dbc.movements ++ o.items.map (returnMovementOf o.id actorId)
    ∧ (∀ it : OrderItem,
        (returnMovementOf o.id actorId it).type = MovementType.RETURN
        ∧ (returnMovementOf o.id actorId it).reason = some "Order cancelled"
        ∧ (returnMovementOf o.id actorId it).referenceId = some o.id
        ∧ (returnMovementOf o.id actorId it).quantityDelta = (it.quantity : ℤ))
    ∧ (∃ o', (cancelOrder o.id actorId role now' db').2 = Except.ok o'
        ∧ o'.orderStatus = OrderStatus.CANCELLED ∧ o'.cancelledAt = some now')
    ∧ (cancelOrder o.id actorId role now' db').1.orders
        = updateOrderById o.id (fun x => { x with
            orderStatus := OrderStatus.CANCELLED,
            cancelledAt := some now' }) db'.orders := by
  obtain ⟨user, orderItems, subtotal, ps', ms', huser, hbuild, htx, ho, hdbc⟩ :=
    createOrder_ok_inv uid req db0 dbc o h1
  have hoid : o.id = db0.orders.length := by rw [ho]; rfl
  have houser : o.userId = uid := by rw [ho]; rfl
  have hoitems : o.items = orderItems := by rw [ho]; rfl
  have hfind : db'.orders.find? (fun x => x.id == o.id)
      = some { o with orderStatus := s } := by
    rw [hdb']
    show (updateOrderById o.id (fun x => { x with orderStatus := s })
      dbc.orders).find? (fun x => x.id == o.id) = some { o with orderStatus := s }
    rw [hdbc]
    show (updateOrderById o.id (fun x => { x with orderStatus := s })
      (db0.orders ++ [o])).find? (fun x => x.id == o.id)
      = some { o with orderStatus := s }
    exact find_updateOrderById_append (fun x => { x with orderStatus := s })
      (fun x => rfl) db0.orders o
      (fun ord hord => by rw [hoid]; exact hfresh ord hord)
  have hauth' : ¬(role = Role.CUSTOMER
      ∧ ({ o with orderStatus := s } : Order).userId ≠ actorId) := by
    rintro ⟨hc, hne⟩
    apply hne
    show o.userId = actorId
    rw [houser, hauth hc]
  have hstat : ¬¬(({ o with orderStatus := s } : Order).orderStatus
        = OrderStatus.PENDING
      ∨ ({ o with orderStatus := s } : Order).orderStatus
        = OrderStatus.CONFIRMED) :=
    not_not_intro hs
  have hcancel : cancelOrder o.id actorId role now' db' =
      ({ db' with
          products := restoreStock o.items db'.products,
          movements := db'.movements ++ o.items.map (returnMovementOf o.id actorId),
          orders := updateOrderById o.id
            (fun x => { x with
              orderStatus := OrderStatus.CANCELLED,
              cancelledAt := some now' }) db'.orders },
       Except.ok
        { o with
          orderStatus := OrderStatus.CANCELLED,
          cancelledAt := some now' }) := by
    simp only [cancelOrder, hfind]
    rw [if_neg hauth', if_neg hstat]
  have hcorr : orderItems.map (fun it => (it.productId, it.quantity))
      = req.items.map (fun i => (i.productId, i.quantity)) :=
    buildOrderItems_pairs _ req.items orderItems subtotal hbuild
  refine ⟨?_, ?_, ?_, ?_, ?_⟩
  · intro it hit
    have hmem : it.productId ∈ req.items.map (fun i => i.productId) := by
      have hp1 : (it.productId, it.quantity)
          ∈ orderItems.map (fun x => (x.productId, x.quantity)) := by
        rw [← hoitems]
        exact List.mem_map_of_mem _ hit
      rw [hcorr] at hp1
      obtain ⟨i, hi, hpair⟩ := List.mem_map.mp hp1
      exact List.mem_map.mpr ⟨i, hi, congrArg Prod.fst hpair⟩
    have hra := restore_after_deduct db0.orders.length
      ("ORD-" ++ padStart (toString (db0.orders.length + 1)) 6 '0') uid
      req.items orderItems db0.products db0.movements ms' ps'
      hcorr hnd_items htracked htx it.productId hmem
    rw [hcancel]
    show (findProduct (restoreStock o.items db'.products) it.productId).map
        (fun p => (p.stock, p.salesCount))
      = (findProduct db0.products it.productId).map
        (fun p => (p.stock, p.salesCount))
    rw [hoitems, hdb', hdbc]
    exact hra
  · rw [hcancel, hdb']
  · intro it
    exact ⟨rfl, rfl, rfl, rfl⟩
  · rw [hcancel]
    exact ⟨_, rfl, rfl, rfl⟩
  · rw [hcancel]

/-- C4 counterexample: for an order containing an item whose product does
NOT track inventory, cancellation does not restore the pre-order values —
creation leaves the untracked product's stock at 10 and sales at 0, but
cancellation unconditionally increments stock and decrements the sales
counter for every item, ending at stock 11 and sales -1. -/
theorem cancelOrder_untracked_not_restored :
    ∃ dbc o, createOrder 0 untrackedReq untrackedDb = (dbc, Except.ok o)
      ∧ o.orderStatus = OrderStatus.PENDING
      ∧ (findProduct untrackedDb.products 2).map
          (fun p => (p.stock, p.salesCount)) = some (10, 0)
      ∧ (findProduct dbc.products 2).map
          (fun p => (p.stock, p.salesCount)) = some (10, 0)
      ∧ ∃ db2 o', cancelOrder o.id 0 Role.CUSTOMER 7 dbc = (db2, Except.ok o')
        ∧ (findProduct db2.products 2).map
            (fun p => (p.stock, p.salesCount)) = some (11, -1)
        ∧ (some ((11 : ℤ), (-1 : ℤ)) ≠ some ((10 : ℤ), (0 : ℤ))) := by
  refine ⟨_, _, rfl, rfl, rfl, rfl, _, _, rfl, rfl, by decide⟩

/-- Witness for C4: creating the concrete 2-unit order on the tracked
example product and cancelling it right away restores stock 10 and sales
count 0. -/
theorem cancelOrder_restores_witness :
    ∃ dbc o, createOrder 0 exampleReq exampleDb = (dbc, Except.ok o)
      ∧ ∀ it ∈ o.items,
        (findProduct (cancelOrder o.id 0 Role.CUSTOMER 7
            { dbc with
              orders := updateOrderById o.id
                (fun x => { x with orderStatus := OrderStatus.PENDING })
                dbc.orders }).1.products it.productId).map
          (fun p => (p.stock, p.salesCount))
        = (findProduct exampleDb.products it.productId).map
            (fun p => (p.stock, p.salesCount)) := by
  refine ⟨_, _, rfl, ?_⟩
  refine (cancelOrder_restores 0 exampleReq exampleDb _ _ _ OrderStatus.PENDING
    0 Role.CUSTOMER 7 rfl rfl (Or.inl rfl) (by decide) ?_ ?_ (fun _ => rfl)).1
  · intro it hit p hp
    have hit' : it = ⟨1, 2⟩ := by simpa [exampleReq] using hit
    subst hit'
    have h2 : some exampleProduct = some p := hp
    injection h2 with h3
    rw [← h3]
    rfl
  · intro ord hord
    exact absurd hord (List.not_mem_nil ord)
